import Mathlib

/-!
Verification of the GenOS orchestration engine
(`src/backend/orchestration/engine.py` and the schema bounds of
`src/backend/api/models/schemas.py`), shallowly embedded in Lean 4.

Python dictionaries keyed by environment id are embedded as association
lists with Python semantics: `dictGet` returns the first binding,
`dictSet` replaces the binding in place (or appends a fresh one), and
`dictDel` removes the binding.  Python integers are embedded as `Int`;
timestamps (`datetime.utcnow()`) are logical clock values of type `Nat`
supplied to each operation that reads the clock.  External collaborators
(security sandbox, VM manager, container manager) are embedded as
outcome oracles of type `Except String _`, matching the fact that the
engine treats any exception from them uniformly in its `except` blocks.
-/

namespace GenOS

/-- First binding for a key in a Python-style dict (`d[k]` / `k in d`). -/
def dictGet {V : Type} : List (String × V) → String → Option V
  | [], _ => none
  | (k, v) :: rest, key => if k = key then some v else dictGet rest key

/-- Python `d[k] = v`: replace the binding in place, or append a fresh one. -/
def dictSet {V : Type} : List (String × V) → String → V → List (String × V)
  | [], key, value => [(key, value)]
  | (k, v) :: rest, key, value =>
      if k = key then (key, value) :: rest else (k, v) :: dictSet rest key value

/-- Python `del d[k]`: remove the binding for the key. -/
def dictDel {V : Type} : List (String × V) → String → List (String × V)
  | [], _ => []
  | (k, v) :: rest, key => if k = key then rest else (k, v) :: dictDel rest key

@[simp] theorem dictGet_nil {V : Type} (key : String) :
    dictGet ([] : List (String × V)) key = none := rfl

@[simp] theorem dictGet_cons {V : Type} (k : String) (v : V) (rest : List (String × V))
    (key : String) :
    dictGet ((k, v) :: rest) key = if k = key then some v else dictGet rest key := rfl

@[simp] theorem dictGet_dictSet_self {V : Type} (l : List (String × V)) (key : String) (v : V) :
    dictGet (dictSet l key v) key = some v := by
  induction l with
  | nil => simp [dictSet]
  | cons hd tl ih =>
      obtain ⟨k, w⟩ := hd
      by_cases h : k = key <;> simp [dictSet, h, ih]

theorem dictGet_dictSet_ne {V : Type} (l : List (String × V)) (key key₂ : String) (v : V)
    (h : key ≠ key₂) : dictGet (dictSet l key v) key₂ = dictGet l key₂ := by
  induction l with
  | nil => simp [dictSet, h]
  | cons hd tl ih =>
      obtain ⟨k, w⟩ := hd
      by_cases hk : k = key
      · subst hk; simp [dictSet, h]
      · simp [dictSet, hk, ih]

theorem dictDel_dictSet_of_get_none {V : Type} (l : List (String × V)) (key : String) (v : V)
    (h : dictGet l key = none) : dictDel (dictSet l key v) key = l := by
  induction l with
  | nil => simp [dictSet, dictDel]
  | cons hd tl ih =>
      obtain ⟨k, w⟩ := hd
      rw [dictGet_cons] at h
      by_cases hk : k = key
      · rw [if_pos hk] at h; exact absurd h (by simp)
      · rw [if_neg hk] at h
        simp [dictSet, dictDel, hk, ih h]

theorem dictGet_eq_none_of_not_mem_keys {V : Type} (l : List (String × V)) (key : String)
    (h : key ∉ l.map Prod.fst) : dictGet l key = none := by
  induction l with
  | nil => rfl
  | cons hd tl ih =>
      obtain ⟨k, w⟩ := hd
      simp only [List.map_cons, List.mem_cons, not_or] at h
      rw [dictGet_cons, if_neg (fun e => h.1 e.symm), ih h.2]

theorem mem_keys_of_mem_keys_dictDel {V : Type} (l : List (String × V)) (key x : String)
    (hx : x ∈ (dictDel l key).map Prod.fst) : x ∈ l.map Prod.fst := by
  induction l with
  | nil => simp [dictDel] at hx
  | cons hd tl ih =>
      obtain ⟨k, w⟩ := hd
      by_cases hk : k = key
      · rw [dictDel, if_pos hk] at hx
        simp only [List.map_cons, List.mem_cons]
        exact Or.inr hx
      · rw [dictDel, if_neg hk] at hx
        simp only [List.map_cons, List.mem_cons] at hx ⊢
        rcases hx with hx | hx
        · exact Or.inl hx
        · exact Or.inr (ih hx)

theorem dictGet_dictDel_self {V : Type} (l : List (String × V)) (key : String)
    (h : (l.map Prod.fst).Nodup) : dictGet (dictDel l key) key = none := by
  induction l with
  | nil => simp [dictDel]
  | cons hd tl ih =>
      obtain ⟨k, w⟩ := hd
      simp only [List.map_cons, List.nodup_cons] at h
      by_cases hk : k = key
      · rw [dictDel, if_pos hk]
        exact dictGet_eq_none_of_not_mem_keys tl key (hk ▸ h.1)
      · rw [dictDel, if_neg hk, dictGet_cons, if_neg hk]
        exact ih h.2

theorem dictKeys_dictDel_nodup {V : Type} (l : List (String × V)) (key : String)
    (h : (l.map Prod.fst).Nodup) : ((dictDel l key).map Prod.fst).Nodup := by
  induction l with
  | nil => simp [dictDel]
  | cons hd tl ih =>
      obtain ⟨k, w⟩ := hd
      simp only [List.map_cons, List.nodup_cons] at h
      by_cases hk : k = key
      · rw [dictDel, if_pos hk]
        exact h.2
      · rw [dictDel, if_neg hk]
        simp only [List.map_cons, List.nodup_cons]
        exact ⟨fun hx => h.1 (mem_keys_of_mem_keys_dictDel tl key k hx), ih h.2⟩

/-! ## Data model (`schemas.py`) -/

/-- `EnvironmentStatus` from `src/backend/api/models/schemas.py`. -/
inductive EnvironmentStatus where
  | REQUESTED
  | PROVISIONING
  | RUNNING
  | SUSPENDED
  | TERMINATED
  | ERROR
  deriving DecidableEq, Repr

/-- `NetworkMode` from `src/backend/api/models/schemas.py`. -/
inductive NetworkMode where
  | ISOLATED
  | LIMITED
  | FULL
  deriving DecidableEq, Repr

/-- `EnvironmentSpec` from `src/backend/api/models/schemas.py`
(the fields the orchestration engine reads). -/
structure EnvironmentSpec where
  base_os : String
  apps : List String
  network_mode : NetworkMode
  memory_mb : Int
  cpu_cores : Int
  disk_gb : Int
  gpu_enabled : Bool
  deriving DecidableEq, Repr

/-- The pydantic field bounds on `EnvironmentSpec`
(`cpu_cores` 1..8, `memory_mb` 512..16384, `disk_gb` 10..100). -/
def EnvironmentSpec.schemaValid (s : EnvironmentSpec) : Prop :=
  1 ≤ s.cpu_cores ∧ s.cpu_cores ≤ 8 ∧
  512 ≤ s.memory_mb ∧ s.memory_mb ≤ 16384 ∧
  10 ≤ s.disk_gb ∧ s.disk_gb ≤ 100

instance (s : EnvironmentSpec) : Decidable s.schemaValid := by
  unfold EnvironmentSpec.schemaValid; infer_instance

/-! ## ResourcePool (`engine.py`, lines 29-83) -/

/-- One entry of `ResourcePool.active_environments`: the dict
`{"cpu": ..., "memory": ..., "disk": ..., "allocated_at": ...}`. -/
structure Reservation where
  cpu : Int
  memory : Int
  disk : Int
  allocated_at : Nat
  deriving DecidableEq, Repr

/-- `ResourcePool` state (`engine.py` lines 29-39). -/
structure ResourcePool where
  max_cpu_cores : Int
  max_memory_mb : Int
  max_disk_gb : Int
  allocated_cpu : Int
  allocated_memory : Int
  allocated_disk : Int
  active_environments : List (String × Reservation)
  deriving DecidableEq, Repr

/-- `ResourcePool.__init__` (`engine.py` lines 32-39). -/
def ResourcePool.fresh : ResourcePool :=
  { max_cpu_cores := 16
    max_memory_mb := 32768
    max_disk_gb := 1000
    allocated_cpu := 0
    allocated_memory := 0
    allocated_disk := 0
    active_environments := [] }

/-- `ResourcePool.can_allocate` (`engine.py` lines 41-47). -/
def ResourcePool.can_allocate (p : ResourcePool) (cpu memory disk : Int) : Bool :=
  p.allocated_cpu + cpu ≤ p.max_cpu_cores &&
  p.allocated_memory + memory ≤ p.max_memory_mb &&
  p.allocated_disk + disk ≤ p.max_disk_gb

/-- `ResourcePool.allocate` (`engine.py` lines 49-63); `now` is the value of
`datetime.utcnow()` recorded in the reservation.  Returns the Python return
value paired with the updated pool. -/
def ResourcePool.allocate (p : ResourcePool) (env_id : String) (cpu memory disk : Int)
    (now : Nat) : Bool × ResourcePool :=
  if p.can_allocate cpu memory disk then
    (true,
      { p with
          allocated_cpu := p.allocated_cpu + cpu
          allocated_memory := p.allocated_memory + memory
          allocated_disk := p.allocated_disk + disk
          active_environments :=
            dictSet p.active_environments env_id
              { cpu := cpu, memory := memory, disk := disk, allocated_at := now } })
  else
    (false, p)

/-- `ResourcePool.deallocate` (`engine.py` lines 65-75). -/
def ResourcePool.deallocate (p : ResourcePool) (env_id : String) : Bool × ResourcePool :=
  match dictGet p.active_environments env_id with
  | some resources =>
      (true,
        { p with
            allocated_cpu := p.allocated_cpu - resources.cpu
            allocated_memory := p.allocated_memory - resources.memory
            allocated_disk := p.allocated_disk - resources.disk
            active_environments := dictDel p.active_environments env_id })
  | none => (false, p)

/-- `ResourcePool.get_utilization` (`engine.py` lines 77-83), with the three
percentages kept as exact rationals. -/
def ResourcePool.get_utilization (p : ResourcePool) : ℚ × ℚ × ℚ :=
  ((p.allocated_cpu : ℚ) / (p.max_cpu_cores : ℚ) * 100,
   (p.allocated_memory : ℚ) / (p.max_memory_mb : ℚ) * 100,
   (p.allocated_disk : ℚ) / (p.max_disk_gb : ℚ) * 100)

/-! ## Sequences of pool calls -/

/-- One call made against a `ResourcePool`. -/
inductive PoolOp where
  | alloc (env_id : String) (cpu memory disk : Int) (now : Nat)
  | dealloc (env_id : String)
  deriving DecidableEq, Repr

/-- Apply one call to the pool, keeping only the state. -/
def applyPoolOp (p : ResourcePool) : PoolOp → ResourcePool
  | .alloc env_id cpu memory disk now => (p.allocate env_id cpu memory disk now).2
  | .dealloc env_id => (p.deallocate env_id).2

/-- Run a sequence of calls against a pool. -/
def applyPoolOps (p : ResourcePool) (ops : List PoolOp) : ResourcePool :=
  ops.foldl applyPoolOp p

/-- An `allocate` call with non-negative quantities, as guaranteed by schema
validation at ingestion (`EnvironmentSpec` bounds `ge=1/512/10`). -/
def PoolOp.nonneg : PoolOp → Bool
  | .alloc _ cpu memory disk _ => 0 ≤ cpu && 0 ≤ memory && 0 ≤ disk
  | .dealloc _ => true

/-- Sum of the committed cpu quantities over all active reservations. -/
def sumCpu (l : List (String × Reservation)) : Int :=
  (l.map (fun e => e.2.cpu)).sum

/-- Sum of the committed memory quantities over all active reservations. -/
def sumMemory (l : List (String × Reservation)) : Int :=
  (l.map (fun e => e.2.memory)).sum

/-- Sum of the committed disk quantities over all active reservations. -/
def sumDisk (l : List (String × Reservation)) : Int :=
  (l.map (fun e => e.2.disk)).sum

/-- The property claimed of every reachable pool state: per-resource sums of
active reservations stay within the declared capacities. -/
def sumsWithinCapacity (p : ResourcePool) : Prop :=
  sumCpu p.active_environments ≤ p.max_cpu_cores ∧
  sumMemory p.active_environments ≤ p.max_memory_mb ∧
  sumDisk p.active_environments ≤ p.max_disk_gb

instance (p : ResourcePool) : Decidable (sumsWithinCapacity p) := by
  unfold sumsWithinCapacity; infer_instance

/-- Inductive invariant carried through every allocate/deallocate call:
all stored quantities are non-negative, the running counters dominate the
per-resource sums of the stored reservations, and the counters respect the
capacity ceilings. -/
structure PoolInv (p : ResourcePool) : Prop where
  entries_nonneg : ∀ e ∈ p.active_environments,
    0 ≤ e.2.cpu ∧ 0 ≤ e.2.memory ∧ 0 ≤ e.2.disk
  sum_cpu_le : sumCpu p.active_environments ≤ p.allocated_cpu
  sum_memory_le : sumMemory p.active_environments ≤ p.allocated_memory
  sum_disk_le : sumDisk p.active_environments ≤ p.allocated_disk
  cpu_le_max : p.allocated_cpu ≤ p.max_cpu_cores
  memory_le_max : p.allocated_memory ≤ p.max_memory_mb
  disk_le_max : p.allocated_disk ≤ p.max_disk_gb

theorem poolInv_fresh : PoolInv ResourcePool.fresh := by
  constructor <;> simp [ResourcePool.fresh, sumCpu, sumMemory, sumDisk]

@[simp] theorem sumCpu_nil : sumCpu [] = 0 := rfl

@[simp] theorem sumCpu_cons (k : String) (w : Reservation) (tl : List (String × Reservation)) :
    sumCpu ((k, w) :: tl) = w.cpu + sumCpu tl := by
  simp [sumCpu]

@[simp] theorem sumMemory_nil : sumMemory [] = 0 := rfl

@[simp] theorem sumMemory_cons (k : String) (w : Reservation) (tl : List (String × Reservation)) :
    sumMemory ((k, w) :: tl) = w.memory + sumMemory tl := by
  simp [sumMemory]

@[simp] theorem sumDisk_nil : sumDisk [] = 0 := rfl

@[simp] theorem sumDisk_cons (k : String) (w : Reservation) (tl : List (String × Reservation)) :
    sumDisk ((k, w) :: tl) = w.disk + sumDisk tl := by
  simp [sumDisk]

theorem sumCpu_dictSet (l : List (String × Reservation)) (key : String) (r : Reservation) :
    (dictGet l key = none → sumCpu (dictSet l key r) = sumCpu l + r.cpu) ∧
    (∀ old, dictGet l key = some old →
      sumCpu (dictSet l key r) = sumCpu l - old.cpu + r.cpu) := by
  induction l with
  | nil => simp [dictSet]
  | cons hd tl ih =>
      obtain ⟨k, w⟩ := hd
      by_cases hk : k = key
      · refine ⟨fun h => ?_, fun old h => ?_⟩
        · rw [dictGet_cons, if_pos hk] at h; exact absurd h (by simp)
        · rw [dictGet_cons, if_pos hk] at h
          obtain rfl : w = old := by injection h
          rw [dictSet, if_pos hk, sumCpu_cons, sumCpu_cons]; ring
      · refine ⟨fun h => ?_, fun old h => ?_⟩
        · rw [dictGet_cons, if_neg hk] at h
          rw [dictSet, if_neg hk, sumCpu_cons, sumCpu_cons, ih.1 h]; ring
        · rw [dictGet_cons, if_neg hk] at h
          rw [dictSet, if_neg hk, sumCpu_cons, sumCpu_cons, ih.2 old h]; ring

theorem sumMemory_dictSet (l : List (String × Reservation)) (key : String) (r : Reservation) :
    (dictGet l key = none → sumMemory (dictSet l key r) = sumMemory l + r.memory) ∧
    (∀ old, dictGet l key = some old →
      sumMemory (dictSet l key r) = sumMemory l - old.memory + r.memory) := by
  induction l with
  | nil => simp [dictSet]
  | cons hd tl ih =>
      obtain ⟨k, w⟩ := hd
      by_cases hk : k = key
      · refine ⟨fun h => ?_, fun old h => ?_⟩
        · rw [dictGet_cons, if_pos hk] at h; exact absurd h (by simp)
        · rw [dictGet_cons, if_pos hk] at h
          obtain rfl : w = old := by injection h
          rw [dictSet, if_pos hk, sumMemory_cons, sumMemory_cons]; ring
      · refine ⟨fun h => ?_, fun old h => ?_⟩
        · rw [dictGet_cons, if_neg hk] at h
          rw [dictSet, if_neg hk, sumMemory_cons, sumMemory_cons, ih.1 h]; ring
        · rw [dictGet_cons, if_neg hk] at h
          rw [dictSet, if_neg hk, sumMemory_cons, sumMemory_cons, ih.2 old h]; ring

theorem sumDisk_dictSet (l : List (String × Reservation)) (key : String) (r : Reservation) :
    (dictGet l key = none → sumDisk (dictSet l key r) = sumDisk l + r.disk) ∧
    (∀ old, dictGet l key = some old →
      sumDisk (dictSet l key r) = sumDisk l - old.disk + r.disk) := by
  induction l with
  | nil => simp [dictSet]
  | cons hd tl ih =>
      obtain ⟨k, w⟩ := hd
      by_cases hk : k = key
      · refine ⟨fun h => ?_, fun old h => ?_⟩
        · rw [dictGet_cons, if_pos hk] at h; exact absurd h (by simp)
        · rw [dictGet_cons, if_pos hk] at h
          obtain rfl : w = old := by injection h
          rw [dictSet, if_pos hk, sumDisk_cons, sumDisk_cons]; ring
      · refine ⟨fun h => ?_, fun old h => ?_⟩
        · rw [dictGet_cons, if_neg hk] at h
          rw [dictSet, if_neg hk, sumDisk_cons, sumDisk_cons, ih.1 h]; ring
        · rw [dictGet_cons, if_neg hk] at h
          rw [dictSet, if_neg hk, sumDisk_cons, sumDisk_cons, ih.2 old h]; ring

theorem sumCpu_dictDel (l : List (String × Reservation)) (key : String) (old : Reservation)
    (h : dictGet l key = some old) : sumCpu (dictDel l key) = sumCpu l - old.cpu := by
  induction l with
  | nil => simp at h
  | cons hd tl ih =>
      obtain ⟨k, w⟩ := hd
      rw [dictGet_cons] at h
      by_cases hk : k = key
      · rw [if_pos hk] at h
        obtain rfl : w = old := by injection h
        rw [dictDel, if_pos hk, sumCpu_cons]; ring
      · rw [if_neg hk] at h
        rw [dictDel, if_neg hk, sumCpu_cons, sumCpu_cons, ih h]; ring

theorem sumMemory_dictDel (l : List (String × Reservation)) (key : String) (old : Reservation)
    (h : dictGet l key = some old) : sumMemory (dictDel l key) = sumMemory l - old.memory := by
  induction l with
  | nil => simp at h
  | cons hd tl ih =>
      obtain ⟨k, w⟩ := hd
      rw [dictGet_cons] at h
      by_cases hk : k = key
      · rw [if_pos hk] at h
        obtain rfl : w = old := by injection h
        rw [dictDel, if_pos hk, sumMemory_cons]; ring
      · rw [if_neg hk] at h
        rw [dictDel, if_neg hk, sumMemory_cons, sumMemory_cons, ih h]; ring

theorem sumDisk_dictDel (l : List (String × Reservation)) (key : String) (old : Reservation)
    (h : dictGet l key = some old) : sumDisk (dictDel l key) = sumDisk l - old.disk := by
  induction l with
  | nil => simp at h
  | cons hd tl ih =>
      obtain ⟨k, w⟩ := hd
      rw [dictGet_cons] at h
      by_cases hk : k = key
      · rw [if_pos hk] at h
        obtain rfl : w = old := by injection h
        rw [dictDel, if_pos hk, sumDisk_cons]; ring
      · rw [if_neg hk] at h
        rw [dictDel, if_neg hk, sumDisk_cons, sumDisk_cons, ih h]; ring

/-- Equation lemma: a successful `allocate`. -/
theorem ResourcePool.allocate_of_can (p : ResourcePool) (env_id : String)
    (cpu memory disk : Int) (now : Nat) (h : p.can_allocate cpu memory disk = true) :
    p.allocate env_id cpu memory disk now =
      (true,
        { p with
            allocated_cpu := p.allocated_cpu + cpu
            allocated_memory := p.allocated_memory + memory
            allocated_disk := p.allocated_disk + disk
            active_environments :=
              dictSet p.active_environments env_id
                { cpu := cpu, memory := memory, disk := disk, allocated_at := now } }) := by
  rw [ResourcePool.allocate, if_pos h]

/-- Equation lemma: a rejected `allocate` changes nothing. -/
theorem ResourcePool.allocate_of_not_can (p : ResourcePool) (env_id : String)
    (cpu memory disk : Int) (now : Nat) (h : ¬ p.can_allocate cpu memory disk = true) :
    p.allocate env_id cpu memory disk now = (false, p) := by
  rw [ResourcePool.allocate, if_neg h]

/-- Equation lemma: `deallocate` of an absent reservation changes nothing. -/
theorem ResourcePool.deallocate_of_get_none (p : ResourcePool) (env_id : String)
    (h : dictGet p.active_environments env_id = none) :
    p.deallocate env_id = (false, p) := by
  rw [ResourcePool.deallocate, h]

/-- Equation lemma: `deallocate` of a present reservation returns its quantities. -/
theorem ResourcePool.deallocate_of_get_some (p : ResourcePool) (env_id : String)
    (old : Reservation) (h : dictGet p.active_environments env_id = some old) :
    p.deallocate env_id =
      (true,
        { p with
            allocated_cpu := p.allocated_cpu - old.cpu
            allocated_memory := p.allocated_memory - old.memory
            allocated_disk := p.allocated_disk - old.disk
            active_environments := dictDel p.active_environments env_id }) := by
  rw [ResourcePool.deallocate, h]

theorem mem_dictSet {V : Type} (l : List (String × V)) (key : String) (v : V)
    (e : String × V) (he : e ∈ dictSet l key v) : e = (key, v) ∨ e ∈ l := by
  induction l with
  | nil => simpa [dictSet] using he
  | cons hd tl ih =>
      obtain ⟨k, w⟩ := hd
      by_cases hk : k = key
      · rw [dictSet, if_pos hk] at he
        rcases List.mem_cons.mp he with h | h
        · exact Or.inl h
        · exact Or.inr (List.mem_cons.mpr (Or.inr h))
      · rw [dictSet, if_neg hk] at he
        rcases List.mem_cons.mp he with h | h
        · exact Or.inr (List.mem_cons.mpr (Or.inl h))
        · rcases ih h with h₂ | h₂
          · exact Or.inl h₂
          · exact Or.inr (List.mem_cons.mpr (Or.inr h₂))

theorem mem_dictDel {V : Type} (l : List (String × V)) (key : String)
    (e : String × V) (he : e ∈ dictDel l key) : e ∈ l := by
  induction l with
  | nil => simp [dictDel] at he
  | cons hd tl ih =>
      obtain ⟨k, w⟩ := hd
      by_cases hk : k = key
      · rw [dictDel, if_pos hk] at he
        exact List.mem_cons.mpr (Or.inr he)
      · rw [dictDel, if_neg hk] at he
        rcases List.mem_cons.mp he with h | h
        · exact List.mem_cons.mpr (Or.inl h)
        · exact List.mem_cons.mpr (Or.inr (ih h))

theorem dictGet_mem {V : Type} (l : List (String × V)) (key : String) (v : V)
    (h : dictGet l key = some v) : (key, v) ∈ l := by
  induction l with
  | nil => simp at h
  | cons hd tl ih =>
      obtain ⟨k, w⟩ := hd
      rw [dictGet_cons] at h
      by_cases hk : k = key
      · rw [if_pos hk] at h
        obtain rfl : w = v := by injection h
        exact List.mem_cons.mpr (Or.inl (by rw [hk]))
      · rw [if_neg hk] at h
        exact List.mem_cons.mpr (Or.inr (ih h))

theorem poolInv_applyPoolOp (p : ResourcePool) (op : PoolOp)
    (hp : PoolInv p) (hop : op.nonneg = true) : PoolInv (applyPoolOp p op) := by
  cases op with
  | alloc env_id cpu memory disk now =>
      simp only [PoolOp.nonneg, Bool.and_eq_true, decide_eq_true_eq] at hop
      obtain ⟨⟨hc, hm⟩, hd⟩ := hop
      rw [applyPoolOp]
      by_cases hcan : p.can_allocate cpu memory disk = true
      · rw [ResourcePool.allocate_of_can p env_id cpu memory disk now hcan]
        have hcan₂ := hcan
        simp only [ResourcePool.can_allocate, Bool.and_eq_true, decide_eq_true_eq] at hcan₂
        obtain ⟨⟨hcc, hcm⟩, hcd⟩ := hcan₂
        constructor
        · intro e he
          rcases mem_dictSet _ _ _ _ he with h | h
          · subst h; exact ⟨hc, hm, hd⟩
          · exact hp.entries_nonneg e h
        · rcases h : dictGet p.active_environments env_id with _ | old
          · rw [(sumCpu_dictSet _ env_id ⟨cpu, memory, disk, now⟩).1 h]
            exact add_le_add_right hp.sum_cpu_le cpu
          · rw [(sumCpu_dictSet _ env_id ⟨cpu, memory, disk, now⟩).2 old h]
            have hold : 0 ≤ old.cpu :=
              (hp.entries_nonneg (env_id, old) (dictGet_mem _ _ _ h)).1
            have := hp.sum_cpu_le
            dsimp only
            omega
        · rcases h : dictGet p.active_environments env_id with _ | old
          · rw [(sumMemory_dictSet _ env_id ⟨cpu, memory, disk, now⟩).1 h]
            exact add_le_add_right hp.sum_memory_le memory
          · rw [(sumMemory_dictSet _ env_id ⟨cpu, memory, disk, now⟩).2 old h]
            have hold : 0 ≤ old.memory :=
              (hp.entries_nonneg (env_id, old) (dictGet_mem _ _ _ h)).2.1
            have := hp.sum_memory_le
            dsimp only
            omega
        · rcases h : dictGet p.active_environments env_id with _ | old
          · rw [(sumDisk_dictSet _ env_id ⟨cpu, memory, disk, now⟩).1 h]
            exact add_le_add_right hp.sum_disk_le disk
          · rw [(sumDisk_dictSet _ env_id ⟨cpu, memory, disk, now⟩).2 old h]
            have hold : 0 ≤ old.disk :=
              (hp.entries_nonneg (env_id, old) (dictGet_mem _ _ _ h)).2.2
            have := hp.sum_disk_le
            dsimp only
            omega
        · exact hcc
        · exact hcm
        · exact hcd
      · rw [ResourcePool.allocate_of_not_can p env_id cpu memory disk now hcan]
        exact hp
  | dealloc env_id =>
      rw [applyPoolOp]
      rcases h : dictGet p.active_environments env_id with _ | old
      · rw [ResourcePool.deallocate_of_get_none p env_id h]
        exact hp
      · rw [ResourcePool.deallocate_of_get_some p env_id old h]
        have hmem := dictGet_mem _ _ _ h
        have hold := hp.entries_nonneg (env_id, old) hmem
        constructor
        · intro e he
          exact hp.entries_nonneg e (mem_dictDel _ _ _ he)
        · dsimp only
          rw [sumCpu_dictDel _ _ _ h]
          have := hp.sum_cpu_le; omega
        · dsimp only
          rw [sumMemory_dictDel _ _ _ h]
          have := hp.sum_memory_le; omega
        · dsimp only
          rw [sumDisk_dictDel _ _ _ h]
          have := hp.sum_disk_le; omega
        · have := hp.cpu_le_max
          have h₁ : 0 ≤ old.cpu := hold.1
          dsimp only
          omega
        · have := hp.memory_le_max
          have h₁ : 0 ≤ old.memory := hold.2.1
          dsimp only
          omega
        · have := hp.disk_le_max
          have h₁ : 0 ≤ old.disk := hold.2.2
          dsimp only
          omega

theorem poolInv_applyPoolOps (p : ResourcePool) (ops : List PoolOp)
    (hp : PoolInv p) (hops : ops.all PoolOp.nonneg = true) :
    PoolInv (applyPoolOps p ops) := by
  induction ops generalizing p with
  | nil => exact hp
  | cons op rest ih =>
      rw [List.all_cons, Bool.and_eq_true] at hops
      exact ih (applyPoolOp p op) (poolInv_applyPoolOp p op hp hops.1) hops.2

theorem poolInv_sumsWithinCapacity (p : ResourcePool) (hp : PoolInv p) :
    sumsWithinCapacity p :=
  ⟨hp.sum_cpu_le.trans hp.cpu_le_max,
   hp.sum_memory_le.trans hp.memory_le_max,
   hp.sum_disk_le.trans hp.disk_le_max⟩

/-- An `allocate` immediately undone by a `deallocate` of the same fresh id
restores the pool exactly (whether or not the allocation was admitted). -/
theorem allocate_deallocate_fresh (p : ResourcePool) (env_id : String)
    (cpu memory disk : Int) (now : Nat)
    (h : dictGet p.active_environments env_id = none) :
    ((p.allocate env_id cpu memory disk now).2.deallocate env_id).2 = p := by
  by_cases hcan : p.can_allocate cpu memory disk = true
  · rw [ResourcePool.allocate_of_can p env_id cpu memory disk now hcan]
    rw [ResourcePool.deallocate_of_get_some _ env_id ⟨cpu, memory, disk, now⟩
      (by dsimp only; exact dictGet_dictSet_self _ _ _)]
    dsimp only
    rw [dictDel_dictSet_of_get_none _ _ _ h]
    cases p
    dsimp only
    congr 1 <;> omega
  · rw [ResourcePool.allocate_of_not_can p env_id cpu memory disk now hcan]
    rw [ResourcePool.deallocate_of_get_none p env_id h]

/-! ## Provisioning strategy (`engine.py` lines 22-27 and 233-255) -/

/-- `ProvisioningStrategy` from `engine.py` lines 22-27. -/
inductive ProvisioningStrategy where
  | VM_ONLY
  | CONTAINER_ONLY
  | HYBRID
  | AUTO
  deriving DecidableEq, Repr

/-- Whether `needle` starts `hay` (character lists). -/
def startsWithL : List Char → List Char → Bool
  | [], _ => true
  | _ :: _, [] => false
  | c :: cs, d :: ds => c == d && startsWithL cs ds

/-- Python `needle in hay` on strings, as character lists. -/
def containsL (needle : List Char) : List Char → Bool
  | [] => needle.isEmpty
  | c :: cs => startsWithL needle (c :: cs) || containsL needle cs

/-- Python `hay.lower()` as a character list (`Char.toLower` per character;
the engine's OS identifiers are ASCII, where this agrees with Python). -/
def strLower (hay : String) : List Char :=
  hay.toList.map Char.toLower

/-- Python `needle in hay.lower()` for strings. -/
def strInLower (needle hay : String) : Bool :=
  containsL needle.toList (strLower hay)

/-- The `simple_apps` allow-list of `_determine_strategy` (`engine.py` line 250). -/
def simple_apps : List String := ["firefox", "chrome", "terminal", "python", "nodejs"]

/-- `OrchestrationEngine._determine_strategy` (`engine.py` lines 233-255). -/
def determine_strategy (spec : EnvironmentSpec) : ProvisioningStrategy :=
  if spec.gpu_enabled then
    ProvisioningStrategy.VM_ONLY
  else if strInLower "windows" spec.base_os || strInLower "macos" spec.base_os then
    ProvisioningStrategy.VM_ONLY
  else if spec.memory_mb > 4096 || spec.cpu_cores > 4 then
    ProvisioningStrategy.VM_ONLY
  else if spec.apps.all (fun app => simple_apps.contains app) then
    ProvisioningStrategy.CONTAINER_ONLY
  else
    ProvisioningStrategy.VM_ONLY

/-- Modelled from the spec: `SelectStrategy`, written from the wording of the
spec's ordered first-match rules (§4.2): (1) GPU → VM; (2) base OS in the
Windows or macOS family (detected case-insensitively, as in the source) → VM;
(3) memory_mb > 4096 or cpu_cores > 4 → VM; (4) every requested application in
the lightweight allow-list → Container (an empty application list passes
trivially); (5) otherwise VM. -/
def SelectStrategy (spec : EnvironmentSpec) : ProvisioningStrategy :=
  if spec.gpu_enabled = true then
    ProvisioningStrategy.VM_ONLY
  else if strInLower "windows" spec.base_os = true ∨ strInLower "macos" spec.base_os = true then
    ProvisioningStrategy.VM_ONLY
  else if 4096 < spec.memory_mb ∨ 4 < spec.cpu_cores then
    ProvisioningStrategy.VM_ONLY
  else if ∀ app ∈ spec.apps, app ∈ simple_apps then
    ProvisioningStrategy.CONTAINER_ONLY
  else
    ProvisioningStrategy.VM_ONLY

/-! ## OrchestrationEngine (`engine.py` lines 85-418)

The engine's registry entry for one environment (`create_environment`,
lines 141-152).  The Python dict starts without `started_at` /
`stopped_at` / `terminated_at` keys; `Option Nat` models presence of the
key.  Of the `metadata` dict we track its `"error"` and
`"security_config"` keys, the only ones the engine writes. -/
structure EnvRecord where
  user_id : Int
  specification : EnvironmentSpec
  strategy : ProvisioningStrategy
  status : EnvironmentStatus
  created_at : Nat
  vm_id : Option String
  container_id : Option String
  streaming_port : Option Int
  started_at : Option Nat
  stopped_at : Option Nat
  terminated_at : Option Nat
  metadata_error : Option String
  metadata_security : Option Nat
  deriving DecidableEq, Repr

/-- A work item's action (`engine.py` lines 157-160, 178-181, 198-201, 212-215). -/
inductive WorkAction where
  | provision
  | start
  | stop
  | terminate
  deriving DecidableEq, Repr

/-- The engine state the claims touch: the resource pool, the environment
registry, and the provisioning queue (as the list of pending work items). -/
structure EngineState where
  resource_pool : ResourcePool
  environments : List (String × EnvRecord)
  queue : List (WorkAction × String)
  deriving DecidableEq, Repr

/-- `OrchestrationEngine.create_environment` (`engine.py` lines 133-163):
registers a fresh REQUESTED record (overwriting any record under the same id)
and enqueues a `provision` work item. -/
def create_environment (st : EngineState) (env_id : String) (spec : EnvironmentSpec)
    (user_id : Int) (now : Nat) : EngineState :=
  let environment : EnvRecord :=
    { user_id := user_id
      specification := spec
      strategy := determine_strategy spec
      status := EnvironmentStatus.REQUESTED
      created_at := now
      vm_id := none
      container_id := none
      streaming_port := none
      started_at := none
      stopped_at := none
      terminated_at := none
      metadata_error := none
      metadata_security := none }
  { st with
      environments := dictSet st.environments env_id environment
      queue := st.queue ++ [(WorkAction.provision, env_id)] }

/-- `OrchestrationEngine.start_environment` (`engine.py` lines 165-183):
returns `false` unless the environment exists and is SUSPENDED; otherwise
enqueues a `start` work item. -/
def start_environment (st : EngineState) (env_id : String) : Bool × EngineState :=
  match dictGet st.environments env_id with
  | none => (false, st)
  | some environment =>
      if environment.status ≠ EnvironmentStatus.SUSPENDED then
        (false, st)
      else
        (true, { st with queue := st.queue ++ [(WorkAction.start, env_id)] })

/-- `OrchestrationEngine.stop_environment` (`engine.py` lines 185-203):
returns `false` unless the environment exists and is RUNNING; otherwise
enqueues a `stop` work item. -/
def stop_environment (st : EngineState) (env_id : String) : Bool × EngineState :=
  match dictGet st.environments env_id with
  | none => (false, st)
  | some environment =>
      if environment.status ≠ EnvironmentStatus.RUNNING then
        (false, st)
      else
        (true, { st with queue := st.queue ++ [(WorkAction.stop, env_id)] })

/-- `OrchestrationEngine.terminate_environment` (`engine.py` lines 205-217):
returns `false` only when the environment does not exist; no status guard. -/
def terminate_environment (st : EngineState) (env_id : String) : Bool × EngineState :=
  match dictGet st.environments env_id with
  | none => (false, st)
  | some _ =>
      (true, { st with queue := st.queue ++ [(WorkAction.terminate, env_id)] })

/-- Record an error exactly as the engine's `except` blocks do:
`environment["status"] = ERROR; environment["metadata"]["error"] = str(e)`. -/
def EnvRecord.fail (environment : EnvRecord) (msg : String) : EnvRecord :=
  { environment with
      status := EnvironmentStatus.ERROR
      metadata_error := some msg }

/-- Outcomes of the external calls `_provision_environment` awaits, one slot
per call site.  `Except.error msg` embeds the call raising an exception with
message `msg`; any exception lands in the engine's `except` handler. -/
structure ProvisionOutcomes where
  create_security_config : Except String Nat
  create_instance : Except String String
  start_instance : Except String Unit
  get_streaming_port : Except String (Option Int)
  deriving Repr

/-- `OrchestrationEngine._provision_environment` (`engine.py` lines 295-353),
with the external calls resolved by `o` and `datetime.utcnow()` by `now`.
A missing registry entry (Python `KeyError`, caught by the worker loop)
leaves the state unchanged. -/
def provision_environment (st : EngineState) (env_id : String)
    (o : ProvisionOutcomes) (now : Nat) : EngineState :=
  match dictGet st.environments env_id with
  | none => st
  | some env₀ =>
      let spec := env₀.specification
      let env₁ := { env₀ with status := EnvironmentStatus.PROVISIONING }
      if st.resource_pool.can_allocate spec.cpu_cores spec.memory_mb spec.disk_gb then
        let pool₁ := (st.resource_pool.allocate env_id spec.cpu_cores spec.memory_mb
          spec.disk_gb now).2
        match o.create_security_config with
        | Except.error e =>
            { st with
                resource_pool := (pool₁.deallocate env_id).2
                environments := dictSet st.environments env_id (env₁.fail e) }
        | Except.ok sc =>
            let env₂ := { env₁ with metadata_security := some sc }
            match env₂.strategy with
            | ProvisioningStrategy.VM_ONLY =>
                (match o.create_instance with
                | Except.error e =>
                    { st with
                        resource_pool := (pool₁.deallocate env_id).2
                        environments := dictSet st.environments env_id (env₂.fail e) }
                | Except.ok vm_id =>
                    let env₃ := { env₂ with vm_id := some vm_id }
                    match o.start_instance with
                    | Except.error e =>
                        { st with
                            resource_pool := (pool₁.deallocate env_id).2
                            environments := dictSet st.environments env_id (env₃.fail e) }
                    | Except.ok _ =>
                        match o.get_streaming_port with
                        | Except.error e =>
                            { st with
                                resource_pool := (pool₁.deallocate env_id).2
                                environments := dictSet st.environments env_id (env₃.fail e) }
                        | Except.ok port =>
                            { st with
                                resource_pool := pool₁
                                environments := dictSet st.environments env_id
                                  { env₃ with
                                      streaming_port := port
                                      status := EnvironmentStatus.RUNNING
                                      started_at := some now } })
            | ProvisioningStrategy.CONTAINER_ONLY =>
                (match o.create_instance with
                | Except.error e =>
                    { st with
                        resource_pool := (pool₁.deallocate env_id).2
                        environments := dictSet st.environments env_id (env₂.fail e) }
                | Except.ok container_id =>
                    let env₃ := { env₂ with container_id := some container_id }
                    match o.start_instance with
                    | Except.error e =>
                        { st with
                            resource_pool := (pool₁.deallocate env_id).2
                            environments := dictSet st.environments env_id (env₃.fail e) }
                    | Except.ok _ =>
                        match o.get_streaming_port with
                        | Except.error e =>
                            { st with
                                resource_pool := (pool₁.deallocate env_id).2
                                environments := dictSet st.environments env_id (env₃.fail e) }
                        | Except.ok port =>
                            { st with
                                resource_pool := pool₁
                                environments := dictSet st.environments env_id
                                  { env₃ with
                                      streaming_port := port
                                      status := EnvironmentStatus.RUNNING
                                      started_at := some now } })
            | ProvisioningStrategy.HYBRID =>
                -- neither provisioning branch matches; the code falls
                -- through straight to the RUNNING update
                { st with
                    resource_pool := pool₁
                    environments := dictSet st.environments env_id
                      { env₂ with
                          status := EnvironmentStatus.RUNNING
                          started_at := some now } }
            | ProvisioningStrategy.AUTO =>
                -- neither provisioning branch matches; the code falls
                -- through straight to the RUNNING update
                { st with
                    resource_pool := pool₁
                    environments := dictSet st.environments env_id
                      { env₂ with
                          status := EnvironmentStatus.RUNNING
                          started_at := some now } }
      else
        { st with
            environments :=
              dictSet st.environments env_id (env₁.fail "Insufficient resources") }

/-- `OrchestrationEngine._start_environment` (`engine.py` lines 355-375).
`o` resolves the `start_vm` / `start_container` call when one is made. -/
def start_environment_worker (st : EngineState) (env_id : String)
    (o : Except String Unit) (now : Nat) : EngineState :=
  match dictGet st.environments env_id with
  | none => st
  | some env₀ =>
      let env₁ := { env₀ with status := EnvironmentStatus.PROVISIONING }
      let result : Except String Unit :=
        match env₁.vm_id with
        | some _ => o
        | none =>
            match env₁.container_id with
            | some _ => o
            | none => Except.ok ()
      match result with
      | Except.error e =>
          { st with environments := dictSet st.environments env_id (env₁.fail e) }
      | Except.ok _ =>
          { st with
              environments := dictSet st.environments env_id
                { env₁ with
                    status := EnvironmentStatus.RUNNING
                    started_at := some now } }

/-- `OrchestrationEngine._stop_environment` (`engine.py` lines 377-395). -/
def stop_environment_worker (st : EngineState) (env_id : String)
    (o : Except String Unit) (now : Nat) : EngineState :=
  match dictGet st.environments env_id with
  | none => st
  | some env₀ =>
      let result : Except String Unit :=
        match env₀.vm_id with
        | some _ => o
        | none =>
            match env₀.container_id with
            | some _ => o
            | none => Except.ok ()
      match result with
      | Except.error e =>
          { st with environments := dictSet st.environments env_id (env₀.fail e) }
      | Except.ok _ =>
          { st with
              environments := dictSet st.environments env_id
                { env₀ with
                    status := EnvironmentStatus.SUSPENDED
                    stopped_at := some now } }

/-- `OrchestrationEngine._terminate_environment` (`engine.py` lines 397-418).
Note the source order: the `destroy` call, then `deallocate`, then the
TERMINATED update, all inside the `try` block — so a raising destroy skips
the deallocation. -/
def terminate_environment_worker (st : EngineState) (env_id : String)
    (o : Except String Unit) (now : Nat) : EngineState :=
  match dictGet st.environments env_id with
  | none => st
  | some env₀ =>
      let result : Except String Unit :=
        match env₀.vm_id with
        | some _ => o
        | none =>
            match env₀.container_id with
            | some _ => o
            | none => Except.ok ()
      match result with
      | Except.error e =>
          { st with environments := dictSet st.environments env_id (env₀.fail e) }
      | Except.ok _ =>
          { st with
              resource_pool := (st.resource_pool.deallocate env_id).2
              environments := dictSet st.environments env_id
                { env₀ with
                    status := EnvironmentStatus.TERMINATED
                    terminated_at := some now } }

/-- Whether one of the backing-instance steps of a provision — create,
start, or streaming-port fetch — raises. -/
def instanceStepsFail (o : ProvisionOutcomes) : Bool :=
  match o.create_instance with
  | Except.error _ => true
  | Except.ok _ =>
      match o.start_instance with
      | Except.error _ => true
      | Except.ok _ =>
          match o.get_streaming_port with
          | Except.error _ => true
          | Except.ok _ => false

/-- The failure condition of `_provision_environment`, mirroring its steps:
insufficient capacity, or a raising security-config creation, or — on the
VM and container paths — a raising create, start, or streaming-port fetch. -/
def provisionFails (pool : ResourcePool) (spec : EnvironmentSpec)
    (strategy : ProvisioningStrategy) (o : ProvisionOutcomes) : Bool :=
  if pool.can_allocate spec.cpu_cores spec.memory_mb spec.disk_gb then
    match o.create_security_config with
    | Except.error _ => true
    | Except.ok _ =>
        match strategy with
        | ProvisioningStrategy.VM_ONLY => instanceStepsFail o
        | ProvisioningStrategy.CONTAINER_ONLY => instanceStepsFail o
        | ProvisioningStrategy.HYBRID => false
        | ProvisioningStrategy.AUTO => false
  else true

/-- `dictDel` after `dictSet` on the same key removes exactly the (re)written
binding, leaving what `dictDel` alone would leave. -/
theorem dictDel_dictSet_self {V : Type} (l : List (String × V)) (key : String) (v : V) :
    dictDel (dictSet l key v) key = dictDel l key := by
  induction l with
  | nil => simp [dictSet, dictDel]
  | cons hd tl ih =>
      obtain ⟨k, w⟩ := hd
      by_cases hk : k = key
      · rw [dictSet, if_pos hk, dictDel, if_pos rfl, dictDel, if_pos hk]
      · rw [dictSet, if_neg hk, dictDel, if_neg hk, dictDel, if_neg hk, ih]

/-! ## Claim theorems -/

/-- C1: for every sequence of `allocate`/`deallocate` calls (with the
non-negative quantities guaranteed by schema validation) starting from a
freshly constructed `ResourcePool`, at every point the sums of the committed
cpu/memory/disk quantities over all active reservations stay within the
pool's capacities; and `allocate` commits either all three quantities or
none (a rejected call leaves the pool untouched). -/
theorem claim_C1_pool_capacity_invariant :
    (∀ ops : List PoolOp, ops.all PoolOp.nonneg = true →
      sumsWithinCapacity (applyPoolOps ResourcePool.fresh ops)) ∧
    (∀ (p : ResourcePool) (env_id : String) (cpu memory disk : Int) (now : Nat),
      (p.allocate env_id cpu memory disk now).1 = false →
      (p.allocate env_id cpu memory disk now).2 = p) := by
  constructor
  · intro ops hops
    exact poolInv_sumsWithinCapacity _ (poolInv_applyPoolOps _ ops poolInv_fresh hops)
  · intro p env_id cpu memory disk now h
    by_cases hcan : p.can_allocate cpu memory disk = true
    · rw [ResourcePool.allocate_of_can p env_id cpu memory disk now hcan] at h
      exact absurd h (by simp)
    · rw [ResourcePool.allocate_of_not_can p env_id cpu memory disk now hcan]

/-- Concrete call sequence exercising C1. -/
def exOpsC1 : List PoolOp :=
  [PoolOp.alloc "env-a" 4 1024 50 0,
   PoolOp.alloc "env-b" 8 16384 100 1,
   PoolOp.dealloc "env-a",
   PoolOp.alloc "env-c" 8 8192 200 2]

theorem claim_C1_pool_capacity_invariant_witness :
    sumsWithinCapacity (applyPoolOps ResourcePool.fresh exOpsC1) ∧
    (ResourcePool.fresh.allocate "env-x" 17 1 1 0).2 = ResourcePool.fresh :=
  ⟨claim_C1_pool_capacity_invariant.1 exOpsC1 (by decide),
   claim_C1_pool_capacity_invariant.2 ResourcePool.fresh "env-x" 17 1 1 0 (by decide)⟩

/-- C6 counterexample: `allocate` for an env id that already holds a
reservation is not guarded.  On a fresh pool, after `allocate("e",1,1,1)` a
second `allocate("e",2,2,2)` is accepted (so the call does not reject), and a
single subsequent `deallocate("e")` leaves `allocated_cpu = 1`, not the `0`
from before either allocate (so the overwrite does not credit back the first
reservation's quantities). -/
theorem claim_C6_counterexample :
    ((ResourcePool.fresh.allocate "e" 1 1 1 0).2.allocate "e" 2 2 2 1).1 = true ∧
    ((((ResourcePool.fresh.allocate "e" 1 1 1 0).2.allocate "e" 2 2 2 1).2.deallocate
        "e").2.allocated_cpu = 1) ∧
    ResourcePool.fresh.allocated_cpu = 0 := by
  decide

/-- C6 (amended): calling `allocate` for an env id that already holds an
active reservation is not guarded: whenever the new quantities fit on top of
the *current* counters, the call succeeds, adds the new quantities to the
counters without crediting back the previously committed ones, and overwrites
the stored reservation entry; a single subsequent `deallocate` removes only
the new quantities, so the counters return to their values from just before
the second `allocate` (the first reservation's quantities remain counted)
while the reservation entry is gone. -/
theorem claim_C6_double_allocate_double_counts (p : ResourcePool) (env_id : String)
    (old : Reservation) (cpu memory disk : Int) (now : Nat)
    (_hold : dictGet p.active_environments env_id = some old)
    (hcan : p.can_allocate cpu memory disk = true) :
    (p.allocate env_id cpu memory disk now).1 = true ∧
    dictGet (p.allocate env_id cpu memory disk now).2.active_environments env_id =
      some { cpu := cpu, memory := memory, disk := disk, allocated_at := now } ∧
    ((p.allocate env_id cpu memory disk now).2.deallocate env_id).2 =
      { p with active_environments := dictDel p.active_environments env_id } := by
  rw [ResourcePool.allocate_of_can p env_id cpu memory disk now hcan]
  refine ⟨rfl, ?_, ?_⟩
  · dsimp only
    exact dictGet_dictSet_self _ _ _
  · rw [ResourcePool.deallocate_of_get_some _ env_id
      { cpu := cpu, memory := memory, disk := disk, allocated_at := now }
      (by dsimp only; exact dictGet_dictSet_self _ _ _)]
    dsimp only
    rw [dictDel_dictSet_self]
    cases p
    dsimp only
    congr 1 <;> omega

theorem claim_C6_double_allocate_double_counts_witness :
    ((((ResourcePool.fresh.allocate "e" 1 1 1 0).2.allocate "e" 2 2 2 1).2.deallocate
        "e").2 =
      { (ResourcePool.fresh.allocate "e" 1 1 1 0).2 with active_environments := [] }) :=
  (claim_C6_double_allocate_double_counts (ResourcePool.fresh.allocate "e" 1 1 1 0).2
    "e" { cpu := 1, memory := 1, disk := 1, allocated_at := 0 } 2 2 2 1
    (by decide) (by decide)).2.2

/-- C9: `deallocate` is idempotent — once a `deallocate` has removed the
reservation (or none existed), a further `deallocate` of the same env id
returns `false` and leaves the pool (counters and reservation map) unchanged.
Stated for pools whose reservation map has no duplicate keys, which holds for
every pool built through the `allocate`/`deallocate` interface. -/
theorem claim_C9_deallocate_idempotent (p : ResourcePool) (env_id : String)
    (hnodup : (p.active_environments.map Prod.fst).Nodup) :
    (p.deallocate env_id).2.deallocate env_id = (false, (p.deallocate env_id).2) := by
  rcases h : dictGet p.active_environments env_id with _ | old
  · rw [ResourcePool.deallocate_of_get_none p env_id h,
      ResourcePool.deallocate_of_get_none p env_id h]
  · rw [ResourcePool.deallocate_of_get_some p env_id old h]
    dsimp only
    exact ResourcePool.deallocate_of_get_none _ env_id
      (by dsimp only; exact dictGet_dictDel_self _ _ hnodup)

theorem claim_C9_deallocate_idempotent_witness :
    ((ResourcePool.fresh.allocate "env-a" 2 512 10 0).2.deallocate
        "env-a").2.deallocate "env-a" =
      (false, (((ResourcePool.fresh.allocate "env-a" 2 512 10 0).2.deallocate
        "env-a").2.deallocate "env-a").2) := by
  have h := claim_C9_deallocate_idempotent
    (ResourcePool.fresh.allocate "env-a" 2 512 10 0).2 "env-a" (by decide)
  rw [h]

/-- C10: a freshly constructed `ResourcePool` (capacities 16 cores,
32768 MB, 1000 GB) admits every schema-valid `EnvironmentSpec`
(cpu 1..8, memory 512..16384, disk 10..100): `can_allocate` returns true,
so a first provision of a valid spec never fails for lack of resources. -/
theorem claim_C10_fresh_pool_admits_valid_spec (s : EnvironmentSpec)
    (hs : s.schemaValid) :
    ResourcePool.fresh.can_allocate s.cpu_cores s.memory_mb s.disk_gb = true := by
  obtain ⟨h₁, h₂, h₃, h₄, h₅, h₆⟩ := hs
  simp only [ResourcePool.can_allocate, ResourcePool.fresh, Bool.and_eq_true,
    decide_eq_true_eq]
  refine ⟨⟨?_, ?_⟩, ?_⟩ <;> omega

/-- A maximal schema-valid specification. -/
def exSpecC10 : EnvironmentSpec :=
  { base_os := "ubuntu_22.04"
    apps := []
    network_mode := NetworkMode.ISOLATED
    memory_mb := 16384
    cpu_cores := 8
    disk_gb := 100
    gpu_enabled := false }

theorem claim_C10_fresh_pool_admits_valid_spec_witness :
    ResourcePool.fresh.can_allocate exSpecC10.cpu_cores exSpecC10.memory_mb
      exSpecC10.disk_gb = true :=
  claim_C10_fresh_pool_admits_valid_spec exSpecC10 (by decide)

/-- C8: `start_environment` on an environment whose status is not SUSPENDED
returns `false` and leaves the whole engine state — registry, pool and queue —
unchanged, so nothing is enqueued and no record field changes. -/
theorem claim_C8_start_rejected_outside_suspended (st : EngineState) (env_id : String)
    (env : EnvRecord) (henv : dictGet st.environments env_id = some env)
    (hstatus : env.status ≠ EnvironmentStatus.SUSPENDED) :
    start_environment st env_id = (false, st) := by
  simp only [start_environment, henv]
  rw [if_pos hstatus]

/-- A RUNNING environment used by the C8 witness. -/
def exEnvC8 : EnvRecord :=
  { user_id := 1
    specification := exSpecC10
    strategy := ProvisioningStrategy.CONTAINER_ONLY
    status := EnvironmentStatus.RUNNING
    created_at := 0
    vm_id := none
    container_id := some "ct-1"
    streaming_port := some 6000
    started_at := some 1
    stopped_at := none
    terminated_at := none
    metadata_error := none
    metadata_security := some 0 }

def exStC8 : EngineState :=
  { resource_pool := (ResourcePool.fresh.allocate "env-1" 8 16384 100 0).2
    environments := [("env-1", exEnvC8)]
    queue := [] }

theorem claim_C8_start_rejected_outside_suspended_witness :
    start_environment exStC8 "env-1" = (false, exStC8) :=
  claim_C8_start_rejected_outside_suspended exStC8 "env-1" exEnvC8
    (by decide) (by decide)

/-- C5: `_determine_strategy` is a pure function equal to the spec's ordered
first-match rules (`SelectStrategy`); in particular, with GPU off, a
non-Windows/macOS base OS and resources at most 4096 MB / 4 cores, an empty
application list passes the allow-list rule trivially and yields Container. -/
theorem claim_C5_strategy_selector_matches_rules :
    (∀ spec : EnvironmentSpec, determine_strategy spec = SelectStrategy spec) ∧
    (∀ spec : EnvironmentSpec, spec.gpu_enabled = false →
      (strInLower "windows" spec.base_os || strInLower "macos" spec.base_os) = false →
      spec.memory_mb ≤ 4096 → spec.cpu_cores ≤ 4 → spec.apps = [] →
      determine_strategy spec = ProvisioningStrategy.CONTAINER_ONLY) := by
  constructor
  · intro spec
    simp only [determine_strategy, SelectStrategy, Bool.or_eq_true, decide_eq_true_eq,
      List.all_eq_true, List.contains_iff_exists_mem_beq, beq_iff_eq]
    split_ifs <;> first
      | rfl
      | (exfalso; omega)
      | (exfalso
         rename_i hall hex
         exact hex (fun app happ => by
           obtain ⟨x, hx, he⟩ := hall app happ
           exact he ▸ hx))
      | (exfalso
         rename_i hex hall
         exact hex (fun app happ => ⟨app, hall app happ, rfl⟩))
  · intro spec h₁ h₂ h₃ h₄ h₅
    rw [determine_strategy, if_neg (by simp [h₁]), if_neg (by simp [h₂]),
      if_neg (by simp; omega), if_pos (by simp [h₅])]

/-- A lightweight specification exercising the C5 rules. -/
def exSpecC5 : EnvironmentSpec :=
  { base_os := "ubuntu_22.04"
    apps := []
    network_mode := NetworkMode.ISOLATED
    memory_mb := 2048
    cpu_cores := 2
    disk_gb := 20
    gpu_enabled := false }

theorem claim_C5_strategy_selector_matches_rules_witness :
    determine_strategy exSpecC5 = SelectStrategy exSpecC5 ∧
    determine_strategy exSpecC5 = ProvisioningStrategy.CONTAINER_ONLY :=
  ⟨claim_C5_strategy_selector_matches_rules.1 exSpecC5,
   claim_C5_strategy_selector_matches_rules.2 exSpecC5 (by decide) (by decide)
     (by decide) (by decide) rfl⟩

/-- The specification of the C3/C4/C7 scenario environments. -/
def exSpecVM : EnvironmentSpec :=
  { base_os := "ubuntu_22.04"
    apps := ["firefox"]
    network_mode := NetworkMode.ISOLATED
    memory_mb := 2048
    cpu_cores := 2
    disk_gb := 20
    gpu_enabled := false }

/-- A RUNNING, VM-backed environment holding a pool reservation. -/
def exEnvC3 : EnvRecord :=
  { user_id := 1
    specification := exSpecVM
    strategy := ProvisioningStrategy.VM_ONLY
    status := EnvironmentStatus.RUNNING
    created_at := 0
    vm_id := some "vm-1"
    container_id := none
    streaming_port := some 5900
    started_at := some 1
    stopped_at := none
    terminated_at := none
    metadata_error := none
    metadata_security := some 0 }

def exStC3 : EngineState :=
  { resource_pool := (ResourcePool.fresh.allocate "env-1" 2 2048 20 0).2
    environments := [("env-1", exEnvC3)]
    queue := [] }

/-- C3 is a code bug: when `destroy_vm` raises during a terminate action
(e.g. `stop_vm`'s kill or the disk unlink fails — `_terminate_environment`
catches any exception), the `except` branch sets ERROR and records the
message but skips `resource_pool.deallocate`, which sits inside the `try`
after the destroy call.  Evaluating the embedded code at the failing input:
the reservation for `"env-1"` is still in the pool afterwards, contradicting
the claim that resources are deallocated regardless of destroy failure. -/
theorem claim_C3_terminate_skips_deallocate_on_destroy_error :
    dictGet (terminate_environment_worker exStC3 "env-1"
        (Except.error "Failed to destroy VM") 9).resource_pool.active_environments
      "env-1" = some { cpu := 2, memory := 2048, disk := 20, allocated_at := 0 } ∧
    (dictGet (terminate_environment_worker exStC3 "env-1"
        (Except.error "Failed to destroy VM") 9).environments "env-1").map
      EnvRecord.status = some EnvironmentStatus.ERROR ∧
    (terminate_environment_worker exStC3 "env-1"
        (Except.error "Failed to destroy VM") 9).resource_pool.allocated_cpu = 2 := by
  decide

/-- A TERMINATED environment whose backing VM record is gone (the first
terminate destroyed it and deallocated its reservation), but whose
`vm_id` field is still set — exactly the state `_terminate_environment`
leaves behind. -/
def exEnvC4 : EnvRecord :=
  { user_id := 1
    specification := exSpecVM
    strategy := ProvisioningStrategy.VM_ONLY
    status := EnvironmentStatus.TERMINATED
    created_at := 0
    vm_id := some "vm-2"
    container_id := none
    streaming_port := some 5900
    started_at := some 1
    stopped_at := none
    terminated_at := some 5
    metadata_error := none
    metadata_security := some 0 }

def exStC4 : EngineState :=
  { resource_pool := ResourcePool.fresh
    environments := [("env-2", exEnvC4)]
    queue := [] }

/-- C4 counterexample: TERMINATED is not terminal.  `terminate_environment`
has no status guard, so a second terminate is enqueued for a TERMINATED
environment; when the worker processes it, `destroy_vm` raises
(`ValueError: VM vm-2 not found`, since the first terminate deleted the VM
record) and the handler moves the environment's status from TERMINATED to
ERROR. -/
theorem claim_C4_counterexample :
    (dictGet exStC4.environments "env-2").map EnvRecord.status =
      some EnvironmentStatus.TERMINATED ∧
    (terminate_environment exStC4 "env-2").1 = true ∧
    (dictGet (terminate_environment_worker exStC4 "env-2"
        (Except.error "VM vm-2 not found") 7).environments "env-2").map
      EnvRecord.status = some EnvironmentStatus.ERROR := by
  decide

/-- C4 (amended): for a TERMINATED environment, `start_environment` and
`stop_environment` reject and change nothing, but `terminate_environment`
accepts and enqueues a further terminate action; processing it moves the
status to ERROR whenever the destroy call raises (with a backing id set),
and otherwise re-sets TERMINATED (rewriting the terminated timestamp) —
so TERMINATED is terminal for start/stop but not for terminate. -/
theorem claim_C4_terminated_not_fully_terminal (st : EngineState) (env_id : String)
    (env : EnvRecord) (henv : dictGet st.environments env_id = some env)
    (hterm : env.status = EnvironmentStatus.TERMINATED) :
    start_environment st env_id = (false, st) ∧
    stop_environment st env_id = (false, st) ∧
    terminate_environment st env_id =
      (true, { st with queue := st.queue ++ [(WorkAction.terminate, env_id)] }) ∧
    (∀ msg now, env.vm_id.isSome = true →
      (dictGet (terminate_environment_worker st env_id (Except.error msg) now).environments
        env_id).map EnvRecord.status = some EnvironmentStatus.ERROR) ∧
    (∀ now,
      (dictGet (terminate_environment_worker st env_id (Except.ok ()) now).environments
          env_id).map EnvRecord.status = some EnvironmentStatus.TERMINATED ∧
      (dictGet (terminate_environment_worker st env_id (Except.ok ()) now).environments
          env_id).map EnvRecord.terminated_at = some (some now)) := by
  refine ⟨?_, ?_, ?_, ?_, ?_⟩
  · simp only [start_environment, henv]
    rw [if_pos (by simp [hterm])]
  · simp only [stop_environment, henv]
    rw [if_pos (by simp [hterm])]
  · simp only [terminate_environment, henv]
  · intro msg now hvm
    simp only [terminate_environment_worker, henv]
    rcases hv : env.vm_id with _ | v
    · simp [hv] at hvm
    · dsimp only
      rw [dictGet_dictSet_self]
      rfl
  · intro now
    simp only [terminate_environment_worker, henv]
    rcases hv : env.vm_id with _ | v
    · rcases hc : env.container_id with _ | c
      · dsimp only
        rw [dictGet_dictSet_self]
        exact ⟨rfl, rfl⟩
      · dsimp only
        rw [dictGet_dictSet_self]
        exact ⟨rfl, rfl⟩
    · dsimp only
      rw [dictGet_dictSet_self]
      exact ⟨rfl, rfl⟩

theorem claim_C4_terminated_not_fully_terminal_witness :
    start_environment exStC4 "env-2" = (false, exStC4) ∧
    (dictGet (terminate_environment_worker exStC4 "env-2"
        (Except.error "VM vm-2 not found") 7).environments "env-2").map
      EnvRecord.status = some EnvironmentStatus.ERROR := by
  have h := claim_C4_terminated_not_fully_terminal exStC4 "env-2" exEnvC4
    (by decide) (by decide)
  exact ⟨h.1, h.2.2.2.1 "VM vm-2 not found" 7 (by decide)⟩

/-- A SUSPENDED, VM-backed environment whose start timestamp is already set. -/
def exEnvC7 : EnvRecord :=
  { user_id := 1
    specification := exSpecVM
    strategy := ProvisioningStrategy.VM_ONLY
    status := EnvironmentStatus.SUSPENDED
    created_at := 0
    vm_id := some "vm-3"
    container_id := none
    streaming_port := some 5900
    started_at := some 1
    stopped_at := some 3
    terminated_at := none
    metadata_error := none
    metadata_security := some 0 }

def exStC7 : EngineState :=
  { resource_pool := (ResourcePool.fresh.allocate "env-3" 2 2048 20 0).2
    environments := [("env-3", exEnvC7)]
    queue := [] }

/-- C7 counterexample: the started timestamp is not write-once.  Starting a
SUSPENDED environment whose `started_at` is already `1` rewrites it to the
new clock value `7` (`_start_environment` unconditionally assigns
`environment["started_at"] = datetime.utcnow()` on success). -/
theorem claim_C7_counterexample :
    (dictGet exStC7.environments "env-3").map EnvRecord.started_at = some (some 1) ∧
    (dictGet (start_environment_worker exStC7 "env-3" (Except.ok ()) 7).environments
      "env-3").map EnvRecord.started_at = some (some 7) := by
  decide

/-- C7 (amended): the created timestamp is set at creation and never changed
by the start worker, but the started timestamp is rewritten on every
successful start — in particular a suspended environment started again gets
its started timestamp replaced by the new clock value, whatever was there. -/
theorem claim_C7_started_timestamp_rewritten (st : EngineState) (env_id : String)
    (env : EnvRecord) (now : Nat) (henv : dictGet st.environments env_id = some env) :
    ((dictGet (start_environment_worker st env_id (Except.ok ()) now).environments
        env_id).map EnvRecord.started_at = some (some now)) ∧
    (∀ o : Except String Unit,
      (dictGet (start_environment_worker st env_id o now).environments env_id).map
        EnvRecord.created_at = some env.created_at) := by
  constructor
  · simp only [start_environment_worker, henv]
    rcases hv : env.vm_id with _ | v
    · rcases hc : env.container_id with _ | c
      · dsimp only; rw [dictGet_dictSet_self]; rfl
      · dsimp only; rw [dictGet_dictSet_self]; rfl
    · dsimp only; rw [dictGet_dictSet_self]; rfl
  · intro o
    simp only [start_environment_worker, henv]
    rcases hv : env.vm_id with _ | v
    · rcases hc : env.container_id with _ | c
      · dsimp only
        rw [dictGet_dictSet_self]
        rfl
      · dsimp only
        rcases o with e | u
        · rw [dictGet_dictSet_self]; rfl
        · rw [dictGet_dictSet_self]; rfl
    · dsimp only
      rcases o with e | u
      · rw [dictGet_dictSet_self]; rfl
      · rw [dictGet_dictSet_self]; rfl

theorem claim_C7_started_timestamp_rewritten_witness :
    (dictGet (start_environment_worker exStC7 "env-3" (Except.ok ()) 7).environments
      "env-3").map EnvRecord.started_at = some (some 7) :=
  (claim_C7_started_timestamp_rewritten exStC7 "env-3" exEnvC7 7 (by decide)).1

/-- C2: whenever a provision action fails at any step — insufficient pool
capacity, security-config creation, instance creation, instance start, or
streaming-port fetch — the environment's status becomes ERROR with the error
detail recorded in its metadata, and afterwards the pool holds no reservation
for that environment id (given that, as for every freshly created
environment, it held none before); in the insufficient-capacity case the
pool is exactly as before the action. -/
theorem claim_C2_provision_failure_error_and_rollback (st : EngineState)
    (env_id : String) (env : EnvRecord) (o : ProvisionOutcomes) (now : Nat)
    (henv : dictGet st.environments env_id = some env)
    (hres : dictGet st.resource_pool.active_environments env_id = none)
    (hfail : provisionFails st.resource_pool env.specification env.strategy o = true) :
    (∃ env₂, dictGet (provision_environment st env_id o now).environments env_id =
        some env₂ ∧
      env₂.status = EnvironmentStatus.ERROR ∧ env₂.metadata_error.isSome = true) ∧
    dictGet (provision_environment st env_id o now).resource_pool.active_environments
      env_id = none ∧
    (st.resource_pool.can_allocate env.specification.cpu_cores
        env.specification.memory_mb env.specification.disk_gb = false →
      (provision_environment st env_id o now).resource_pool = st.resource_pool) := by
  have hroll := allocate_deallocate_fresh st.resource_pool env_id
    env.specification.cpu_cores env.specification.memory_mb env.specification.disk_gb
    now hres
  obtain ⟨osc, oci, osi, ogp⟩ := o
  simp only [provision_environment, henv]
  rw [provisionFails.eq_def] at hfail
  dsimp only at hfail ⊢
  by_cases hcan : st.resource_pool.can_allocate env.specification.cpu_cores
      env.specification.memory_mb env.specification.disk_gb = true
  · rw [if_pos hcan]
    rw [if_pos hcan] at hfail
    rcases osc with e | sc
    · dsimp only
      rw [hroll]
      exact ⟨⟨_, dictGet_dictSet_self _ _ _, rfl, rfl⟩, hres, fun _ => rfl⟩
    · dsimp only at hfail ⊢
      revert hfail
      cases env.strategy
      all_goals intro hfail
      · dsimp only [instanceStepsFail] at hfail
        rcases oci with e | vm_id
        · dsimp only
          rw [hroll]
          exact ⟨⟨_, dictGet_dictSet_self _ _ _, rfl, rfl⟩, hres, fun _ => rfl⟩
        · rcases osi with e | u
          · dsimp only
            rw [hroll]
            exact ⟨⟨_, dictGet_dictSet_self _ _ _, rfl, rfl⟩, hres, fun _ => rfl⟩
          · rcases ogp with e | port
            · dsimp only
              rw [hroll]
              exact ⟨⟨_, dictGet_dictSet_self _ _ _, rfl, rfl⟩, hres, fun _ => rfl⟩
            · simp at hfail
      · dsimp only [instanceStepsFail] at hfail
        rcases oci with e | container_id
        · dsimp only
          rw [hroll]
          exact ⟨⟨_, dictGet_dictSet_self _ _ _, rfl, rfl⟩, hres, fun _ => rfl⟩
        · rcases osi with e | u
          · dsimp only
            rw [hroll]
            exact ⟨⟨_, dictGet_dictSet_self _ _ _, rfl, rfl⟩, hres, fun _ => rfl⟩
          · rcases ogp with e | port
            · dsimp only
              rw [hroll]
              exact ⟨⟨_, dictGet_dictSet_self _ _ _, rfl, rfl⟩, hres, fun _ => rfl⟩
            · simp at hfail
      · simp at hfail
      · simp at hfail
  · rw [if_neg hcan]
    dsimp only
    refine ⟨⟨_, dictGet_dictSet_self _ _ _, rfl, rfl⟩, hres, fun _ => rfl⟩

/-- A freshly created REQUESTED environment record for the C2 witness. -/
def exEnvC2 : EnvRecord :=
  { user_id := 1
    specification := exSpecVM
    strategy := ProvisioningStrategy.VM_ONLY
    status := EnvironmentStatus.REQUESTED
    created_at := 0
    vm_id := none
    container_id := none
    streaming_port := none
    started_at := none
    stopped_at := none
    terminated_at := none
    metadata_error := none
    metadata_security := none }

def exStC2 : EngineState :=
  { resource_pool := ResourcePool.fresh
    environments := [("env-9", exEnvC2)]
    queue := [] }

/-- Outcomes where `create_vm` raises after resources were reserved. -/
def exOutcomesC2 : ProvisionOutcomes :=
  { create_security_config := Except.ok 0
    create_instance := Except.error "Failed to create VM disk"
    start_instance := Except.ok ()
    get_streaming_port := Except.ok (some 5900) }

theorem claim_C2_provision_failure_error_and_rollback_witness :
    (∃ env₂, dictGet (provision_environment exStC2 "env-9" exOutcomesC2 3).environments
        "env-9" = some env₂ ∧
      env₂.status = EnvironmentStatus.ERROR ∧ env₂.metadata_error.isSome = true) ∧
    dictGet (provision_environment exStC2 "env-9"
      exOutcomesC2 3).resource_pool.active_environments "env-9" = none :=
  ⟨(claim_C2_provision_failure_error_and_rollback exStC2 "env-9" exEnvC2 exOutcomesC2 3
      (by decide) (by decide) (by decide)).1,
   (claim_C2_provision_failure_error_and_rollback exStC2 "env-9" exEnvC2 exOutcomesC2 3
      (by decide) (by decide) (by decide)).2.1⟩

end GenOS
